import Mathlib

/-! Shallow embedding of the folder_compare library (src/lib.rs): a recursive
comparison of two directory trees that classifies each regular file of the
first tree as new, changed or unchanged with respect to the second tree.

Modelling choices:
* A filesystem path is the list of its components (`FsPath`); the textual form
  handed to the regex set is the components joined with a slash separator.
* The walkdir iterator over the first root is a list of items, each either a
  walk error (skipped by the loop) or a directory entry carrying its path,
  whether it is a regular file, whether it is a symlink, and whether its
  textual path is valid UTF-8 (`Entry.utf8`; `Path::to_str` yields `None`
  exactly when it is not, and the `unwrap` in the source then panics, which
  the embedding renders as the `none` outcome of the whole call).
* The filesystem seen by the classification phase is `FS`: an existence test
  used on the mirror path (`Path::is_file`) and a reader returning the full
  byte contents of a file (`File::open` followed by `read_to_end`), which may
  fail with an I/O error.
* The regex crate is abstracted by a compiler argument `engine` turning one
  pattern into a matcher on strings or failing; `RegexSet::new` compiles every
  pattern and fails as soon as any single one fails, and
  `matches(s).matched_any()` is true iff some compiled pattern matches `s`.
* `FxHasher` (fxhash crate, 64-bit) is implemented concretely: the state is
  rotated left by 5 bits, xored with the next little-endian word and
  multiplied by the seed, consuming 8-byte chunks and then a 4-, 2- and
  1-byte tail, starting from hash 0; `finish` returns the state. -/

abbrev FsPath := List String

/-- Textual form of a path, as handed to the regex set by `to_str`. -/
def pathToString (p : FsPath) : String := String.intercalate "/" p

/-- Embeds `Path::strip_prefix`: removes `base` from the front of the first
path componentwise, `none` when `base` is not a componentwise prefix. -/
def stripRoot : FsPath → FsPath → Option FsPath
  | p, [] => some p
  | [], _ :: _ => none
  | a :: p, b :: q => if a = b then stripRoot p q else none

/-- A directory entry yielded by the walkdir iterator. -/
structure Entry where
  path : FsPath
  isFile : Bool
  isSymlink : Bool
  utf8 : Bool
deriving DecidableEq

/-- The filesystem operations the classification phase performs: the
`is_file` existence test and reading the full contents of a file. -/
structure FS where
  isFile : FsPath → Bool
  read : FsPath → Except Unit (List Nat)

/-- The error wrapper of the library (src/lib.rs lines 110-116): the variants
embed `Error::Io`, `Error::Regex` and `Error::StripPrefix` in that order. -/
inductive Error where
  | ioError : Error
  | regexError : Error
  | stripError : Error
deriving DecidableEq

/-- The three-list result object of the library. -/
structure FolderCompare where
  changed_files : List FsPath
  new_files : List FsPath
  unchanged_files : List FsPath
deriving DecidableEq

/-- A compiled `RegexSet`: one matcher per pattern. -/
abbrev RegexSet := List (String → Bool)

/-- Embeds `RegexSet::new`: compile every pattern with the abstract regex
compiler `engine`, failing as soon as one pattern fails to compile. -/
def compileSet (engine : String → Except Unit (String → Bool)) :
    List String → Except Unit RegexSet
  | [] => Except.ok []
  | p :: rest =>
    match engine p with
    | Except.error e => Except.error e
    | Except.ok m =>
      match compileSet engine rest with
      | Except.error e => Except.error e
      | Except.ok ms => Except.ok (m :: ms)

/-- Embeds `set.matches(s).matched_any()`: true iff some compiled pattern
matches. -/
def matchedAny (set : RegexSet) (s : String) : Bool := set.any (fun m => m s)

/-- The fxhash 64-bit seed 0x51_7c_c1_b7_27_22_0a_95. -/
def fxSeed : Nat := 0x517cc1b727220a95

/-- 64-bit rotate left by 5 (`ROTATE` in the fxhash crate). -/
def rotl5 (h : Nat) : Nat := ((h <<< 5) % 2 ^ 64) ||| (h >>> 59)

/-- One `hash_word` step of `FxHasher`. -/
def hashWord (h w : Nat) : Nat := ((rotl5 h ^^^ w) * fxSeed) % 2 ^ 64

/-- Combine a byte list into one little-endian word. -/
def leWord : List Nat → Nat
  | [] => 0
  | b :: rest => b + 256 * leWord rest

/-- Final 1-byte tail of `FxHasher::write`. -/
def fxTail1 (h : Nat) (bytes : List Nat) : Nat :=
  match bytes with
  | b :: _ => hashWord h b
  | [] => h

/-- 2-byte tail step of `FxHasher::write`. -/
def fxTail2 (h : Nat) (bytes : List Nat) : Nat :=
  match bytes with
  | b0 :: b1 :: rest => fxTail1 (hashWord h (leWord [b0, b1])) rest
  | rest => fxTail1 h rest

/-- 4-byte tail step of `FxHasher::write`. -/
def fxTail4 (h : Nat) (bytes : List Nat) : Nat :=
  match bytes with
  | b0 :: b1 :: b2 :: b3 :: rest => fxTail2 (hashWord h (leWord [b0, b1, b2, b3])) rest
  | rest => fxTail2 h rest

/-- Embeds `FxHasher::write`: consume 8-byte little-endian chunks, then the
4-, 2- and 1-byte tail. -/
def fxWrite (h : Nat) : List Nat → Nat
  | b0 :: b1 :: b2 :: b3 :: b4 :: b5 :: b6 :: b7 :: rest =>
    fxWrite (hashWord h (leWord [b0, b1, b2, b3, b4, b5, b6, b7])) rest
  | bytes => fxTail4 h bytes

/-- The fingerprint of a byte content: `FxHasher::default()` (state 0), one
`write` of the whole buffer, then `finish`. -/
def fxhash (bytes : List Nat) : Nat := fxWrite 0 bytes

/-- Outcome of the loop body of `FolderCompare::new` for one walked item:
skip (`continue`), crash (the `unwrap` panic on a non-UTF-8 path), abort
(an error returned through `?`), or a classification. -/
inductive StepResult where
  | skip : StepResult
  | crash : StepResult
  | abort : Error → StepResult
  | newFile : StepResult
  | unchanged : StepResult
  | changed : StepResult
deriving DecidableEq

/-- The loop body of `FolderCompare::new` (src/lib.rs lines 68-102) for one
entry: the file-type test, the symlink test, the `to_str().unwrap()` and
exclusion test, the `strip_prefix`, the mirror-path existence test, and the
read-hash-compare phase. -/
def classifyEntry (p1 p2 : FsPath) (set : RegexSet) (fs : FS) (e : Entry) :
    StepResult :=
  if e.isFile = false then StepResult.skip
  else if e.isSymlink = true then StepResult.skip
  else
    match (if e.utf8 then some (pathToString e.path) else none) with
    | none => StepResult.crash
    | some s =>
      if matchedAny set s = true then StepResult.skip
      else
        match stripRoot e.path p1 with
        | none => StepResult.abort Error.stripError
        | some rel =>
          if fs.isFile (p2 ++ rel) = false then StepResult.newFile
          else
            match fs.read e.path with
            | Except.error _ => StepResult.abort Error.ioError
            | Except.ok buffer =>
              match fs.read (p2 ++ rel) with
              | Except.error _ => StepResult.abort Error.ioError
              | Except.ok buffer2 =>
                if fxhash buffer = fxhash buffer2 then StepResult.unchanged
                else StepResult.changed

/-- The main loop of `FolderCompare::new` (src/lib.rs lines 62-103): walk
items one by one, skip walk errors silently, and fold each entry outcome
into the accumulating result object. `none` is the unwrap panic; a
`some (Except.error _)` aborts the whole call. -/
def runLoop (p1 p2 : FsPath) (set : RegexSet) (fs : FS) :
    List (Except Unit Entry) → FolderCompare → Option (Except Error FolderCompare)
  | [], acc => some (Except.ok acc)
  | Except.error _ :: rest, acc => runLoop p1 p2 set fs rest acc
  | Except.ok e :: rest, acc =>
    match classifyEntry p1 p2 set fs e with
    | StepResult.skip => runLoop p1 p2 set fs rest acc
    | StepResult.crash => none
    | StepResult.abort er => some (Except.error er)
    | StepResult.newFile =>
      runLoop p1 p2 set fs rest
        { acc with new_files := acc.new_files ++ [e.path] }
    | StepResult.unchanged =>
      runLoop p1 p2 set fs rest
        { acc with unchanged_files := acc.unchanged_files ++ [e.path] }
    | StepResult.changed =>
      runLoop p1 p2 set fs rest
        { acc with changed_files := acc.changed_files ++ [e.path] }

/-- Embeds `FolderCompare::new` (src/lib.rs lines 51-107): compile the
exclusion patterns (a failure surfaces as `Error::Regex` through `?` before
the loop runs), then run the walk loop starting from three empty lists. -/
def FolderCompare.new (engine : String → Except Unit (String → Bool))
    (p1 p2 : FsPath) (excluded : List String)
    (walker : List (Except Unit Entry)) (fs : FS) :
    Option (Except Error FolderCompare) :=
  match compileSet engine excluded with
  | Except.error _ => some (Except.error Error.regexError)
  | Except.ok set => runLoop p1 p2 set fs walker ⟨[], [], []⟩

/-- Modelled from the spec: the two-tuple entry point `compare` is not under
src/ (only the integration test calls `folder_compare::compare`); per the
spec it is a separate entry point for the same core algorithm returning the
pair (changed, new), the projection of the three-list form that omits the
unchanged list. -/
def FolderCompare.compare (engine : String → Except Unit (String → Bool))
    (p1 p2 : FsPath) (excluded : List String)
    (walker : List (Except Unit Entry)) (fs : FS) :
    Option (Except Error (List FsPath × List FsPath)) :=
  (FolderCompare.new engine p1 p2 excluded walker fs).map
    (fun r => r.map (fun fc => (fc.changed_files, fc.new_files)))

/-- The regular files of the first tree, in discovery order: paths of walked
entries that are files and not symlinks. -/
def filesOf (walker : List (Except Unit Entry)) : List FsPath :=
  walker.filterMap (fun x =>
    match x with
    | Except.ok e => if e.isFile && !e.isSymlink then some e.path else none
    | Except.error _ => none)

lemma runLoop_nil (p1 p2 : FsPath) (set : RegexSet) (fs : FS) (acc : FolderCompare) :
    runLoop p1 p2 set fs [] acc = some (Except.ok acc) := rfl

lemma runLoop_walkError (p1 p2 : FsPath) (set : RegexSet) (fs : FS) (u : Unit)
    (rest : List (Except Unit Entry)) (acc : FolderCompare) :
    runLoop p1 p2 set fs (Except.error u :: rest) acc = runLoop p1 p2 set fs rest acc := rfl

lemma runLoop_skipStep {p1 p2 : FsPath} {set : RegexSet} {fs : FS} {e : Entry}
    (rest : List (Except Unit Entry)) (acc : FolderCompare)
    (h : classifyEntry p1 p2 set fs e = StepResult.skip) :
    runLoop p1 p2 set fs (Except.ok e :: rest) acc = runLoop p1 p2 set fs rest acc := by
  simp [runLoop, h]

lemma runLoop_crashStep {p1 p2 : FsPath} {set : RegexSet} {fs : FS} {e : Entry}
    (rest : List (Except Unit Entry)) (acc : FolderCompare)
    (h : classifyEntry p1 p2 set fs e = StepResult.crash) :
    runLoop p1 p2 set fs (Except.ok e :: rest) acc = none := by
  simp [runLoop, h]

lemma runLoop_abortStep {p1 p2 : FsPath} {set : RegexSet} {fs : FS} {e : Entry} {er : Error}
    (rest : List (Except Unit Entry)) (acc : FolderCompare)
    (h : classifyEntry p1 p2 set fs e = StepResult.abort er) :
    runLoop p1 p2 set fs (Except.ok e :: rest) acc = some (Except.error er) := by
  simp [runLoop, h]

lemma runLoop_newStep {p1 p2 : FsPath} {set : RegexSet} {fs : FS} {e : Entry}
    (rest : List (Except Unit Entry)) (acc : FolderCompare)
    (h : classifyEntry p1 p2 set fs e = StepResult.newFile) :
    runLoop p1 p2 set fs (Except.ok e :: rest) acc =
      runLoop p1 p2 set fs rest { acc with new_files := acc.new_files ++ [e.path] } := by
  simp [runLoop, h]

lemma runLoop_unchangedStep {p1 p2 : FsPath} {set : RegexSet} {fs : FS} {e : Entry}
    (rest : List (Except Unit Entry)) (acc : FolderCompare)
    (h : classifyEntry p1 p2 set fs e = StepResult.unchanged) :
    runLoop p1 p2 set fs (Except.ok e :: rest) acc =
      runLoop p1 p2 set fs rest { acc with unchanged_files := acc.unchanged_files ++ [e.path] } := by
  simp [runLoop, h]

lemma runLoop_changedStep {p1 p2 : FsPath} {set : RegexSet} {fs : FS} {e : Entry}
    (rest : List (Except Unit Entry)) (acc : FolderCompare)
    (h : classifyEntry p1 p2 set fs e = StepResult.changed) :
    runLoop p1 p2 set fs (Except.ok e :: rest) acc =
      runLoop p1 p2 set fs rest { acc with changed_files := acc.changed_files ++ [e.path] } := by
  simp [runLoop, h]

lemma classifyEntry_notFile {p1 p2 : FsPath} {set : RegexSet} {fs : FS} {e : Entry}
    (h : e.isFile = false) : classifyEntry p1 p2 set fs e = StepResult.skip := by
  simp [classifyEntry, h]

lemma classifyEntry_symlink {p1 p2 : FsPath} {set : RegexSet} {fs : FS} {e : Entry}
    (h : e.isSymlink = true) : classifyEntry p1 p2 set fs e = StepResult.skip := by
  simp [classifyEntry, h]

lemma classifyEntry_nonUtf8 {p1 p2 : FsPath} {set : RegexSet} {fs : FS} {e : Entry}
    (hf : e.isFile = true) (hs : e.isSymlink = false) (hu : e.utf8 = false) :
    classifyEntry p1 p2 set fs e = StepResult.crash := by
  simp [classifyEntry, hf, hs, hu]

lemma classifyEntry_matched {p1 p2 : FsPath} {set : RegexSet} {fs : FS} {e : Entry}
    (hu : e.utf8 = true) (hm : matchedAny set (pathToString e.path) = true) :
    classifyEntry p1 p2 set fs e = StepResult.skip := by
  simp [classifyEntry, hu, hm]

lemma classifyEntry_stripFail {p1 p2 : FsPath} {set : RegexSet} {fs : FS} {e : Entry}
    (hf : e.isFile = true) (hs : e.isSymlink = false) (hu : e.utf8 = true)
    (hm : matchedAny set (pathToString e.path) = false)
    (hrel : stripRoot e.path p1 = none) :
    classifyEntry p1 p2 set fs e = StepResult.abort Error.stripError := by
  simp [classifyEntry, hf, hs, hu, hm, hrel]

lemma classifyEntry_newFile {p1 p2 : FsPath} {set : RegexSet} {fs : FS} {e : Entry}
    {rel : FsPath}
    (hf : e.isFile = true) (hs : e.isSymlink = false) (hu : e.utf8 = true)
    (hm : matchedAny set (pathToString e.path) = false)
    (hrel : stripRoot e.path p1 = some rel)
    (hmir : fs.isFile (p2 ++ rel) = false) :
    classifyEntry p1 p2 set fs e = StepResult.newFile := by
  simp [classifyEntry, hf, hs, hu, hm, hrel, hmir]

lemma classifyEntry_readFail1 {p1 p2 : FsPath} {set : RegexSet} {fs : FS} {e : Entry}
    {rel : FsPath} {u : Unit}
    (hf : e.isFile = true) (hs : e.isSymlink = false) (hu : e.utf8 = true)
    (hm : matchedAny set (pathToString e.path) = false)
    (hrel : stripRoot e.path p1 = some rel)
    (hmir : fs.isFile (p2 ++ rel) = true)
    (hr : fs.read e.path = Except.error u) :
    classifyEntry p1 p2 set fs e = StepResult.abort Error.ioError := by
  simp [classifyEntry, hf, hs, hu, hm, hrel, hmir, hr]

lemma classifyEntry_readFail2 {p1 p2 : FsPath} {set : RegexSet} {fs : FS} {e : Entry}
    {rel : FsPath} {buf : List Nat} {u : Unit}
    (hf : e.isFile = true) (hs : e.isSymlink = false) (hu : e.utf8 = true)
    (hm : matchedAny set (pathToString e.path) = false)
    (hrel : stripRoot e.path p1 = some rel)
    (hmir : fs.isFile (p2 ++ rel) = true)
    (hr1 : fs.read e.path = Except.ok buf)
    (hr2 : fs.read (p2 ++ rel) = Except.error u) :
    classifyEntry p1 p2 set fs e = StepResult.abort Error.ioError := by
  simp [classifyEntry, hf, hs, hu, hm, hrel, hmir, hr1, hr2]

lemma classifyEntry_hash {p1 p2 : FsPath} {set : RegexSet} {fs : FS} {e : Entry}
    {rel : FsPath} {buf1 buf2 : List Nat}
    (hf : e.isFile = true) (hs : e.isSymlink = false) (hu : e.utf8 = true)
    (hm : matchedAny set (pathToString e.path) = false)
    (hrel : stripRoot e.path p1 = some rel)
    (hmir : fs.isFile (p2 ++ rel) = true)
    (hr1 : fs.read e.path = Except.ok buf1)
    (hr2 : fs.read (p2 ++ rel) = Except.ok buf2) :
    classifyEntry p1 p2 set fs e =
      if fxhash buf1 = fxhash buf2 then StepResult.unchanged else StepResult.changed := by
  simp [classifyEntry, hf, hs, hu, hm, hrel, hmir, hr1, hr2]

lemma classifyEntry_matched_or {p1 p2 : FsPath} {set : RegexSet} {fs : FS} {e : Entry}
    (hm : matchedAny set (pathToString e.path) = true) :
    classifyEntry p1 p2 set fs e = StepResult.skip ∨
      classifyEntry p1 p2 set fs e = StepResult.crash := by
  by_cases hf : e.isFile = false
  · exact Or.inl (classifyEntry_notFile hf)
  · by_cases hs : e.isSymlink = true
    · exact Or.inl (classifyEntry_symlink hs)
    · cases hu : e.utf8 with
      | false =>
        exact Or.inr (classifyEntry_nonUtf8 (by simpa using hf) (by simpa using hs) hu)
      | true =>
        exact Or.inl (classifyEntry_matched hu hm)

lemma perm_snoc_a {α : Type} [DecidableEq α] (A B C L : List α) (x : α) :
    (((A ++ [x]) ++ B ++ C) ++ L).Perm ((A ++ B ++ C) ++ (x :: L)) := by
  rw [List.perm_iff_count]
  intro a
  by_cases hx : a = x <;>
    simp [List.count_append, List.count_cons, hx] <;> omega

lemma perm_snoc_b {α : Type} [DecidableEq α] (A B C L : List α) (x : α) :
    ((A ++ (B ++ [x]) ++ C) ++ L).Perm ((A ++ B ++ C) ++ (x :: L)) := by
  rw [List.perm_iff_count]
  intro a
  by_cases hx : a = x <;>
    simp [List.count_append, List.count_cons, hx] <;> omega

lemma perm_snoc_c {α : Type} [DecidableEq α] (A B C L : List α) (x : α) :
    ((A ++ B ++ (C ++ [x])) ++ L).Perm ((A ++ B ++ C) ++ (x :: L)) := by
  rw [List.perm_iff_count]
  intro a
  by_cases hx : a = x <;>
    simp [List.count_append, List.count_cons, hx] <;> omega

/-- The lists accumulated by the loop under an empty exclusion set: a run
that succeeds distributes exactly the regular non-symlink files of the walk
over its three lists, on top of what was already accumulated. -/
lemma runLoop_perm (p1 p2 : FsPath) (fs : FS) (walker : List (Except Unit Entry)) :
    ∀ acc res : FolderCompare,
      runLoop p1 p2 [] fs walker acc = some (Except.ok res) →
      (res.changed_files ++ res.new_files ++ res.unchanged_files).Perm
        ((acc.changed_files ++ acc.new_files ++ acc.unchanged_files) ++ filesOf walker) := by
  induction walker with
  | nil =>
    intro acc res h
    rw [runLoop_nil] at h
    simp only [Option.some.injEq, Except.ok.injEq] at h
    subst h
    simp [filesOf]
  | cons x rest ih =>
    intro acc res h
    cases x with
    | error u =>
      rw [runLoop_walkError] at h
      simpa [filesOf] using ih acc res h
    | ok e =>
      by_cases hf : e.isFile = false
      · rw [runLoop_skipStep rest acc (classifyEntry_notFile hf)] at h
        simpa [filesOf, hf] using ih acc res h
      · have hf' : e.isFile = true := by simpa using hf
        by_cases hs : e.isSymlink = true
        · rw [runLoop_skipStep rest acc (classifyEntry_symlink hs)] at h
          simpa [filesOf, hs] using ih acc res h
        · have hs' : e.isSymlink = false := by simpa using hs
          cases hu : e.utf8 with
          | false =>
            rw [runLoop_crashStep rest acc (classifyEntry_nonUtf8 hf' hs' hu)] at h
            cases h
          | true =>
            have hm : matchedAny [] (pathToString e.path) = false := rfl
            cases hrel : stripRoot e.path p1 with
            | none =>
              rw [runLoop_abortStep rest acc (classifyEntry_stripFail hf' hs' hu hm hrel)] at h
              cases h
            | some rel =>
              by_cases hmir : fs.isFile (p2 ++ rel) = false
              · rw [runLoop_newStep rest acc
                  (classifyEntry_newFile hf' hs' hu hm hrel hmir)] at h
                have := ih _ res h
                refine this.trans ?_
                simp only [filesOf, List.filterMap_cons, hf', hs']
                simpa [filesOf] using
                  perm_snoc_b acc.changed_files acc.new_files acc.unchanged_files
                    (filesOf rest) e.path
              · have hmir' : fs.isFile (p2 ++ rel) = true := by simpa using hmir
                cases hr1 : fs.read e.path with
                | error u =>
                  rw [runLoop_abortStep rest acc
                    (classifyEntry_readFail1 hf' hs' hu hm hrel hmir' hr1)] at h
                  cases h
                | ok buf1 =>
                  cases hr2 : fs.read (p2 ++ rel) with
                  | error u =>
                    rw [runLoop_abortStep rest acc
                      (classifyEntry_readFail2 hf' hs' hu hm hrel hmir' hr1 hr2)] at h
                    cases h
                  | ok buf2 =>
                    have hcl :=
                      @classifyEntry_hash p1 p2 [] fs e rel buf1 buf2
                        hf' hs' hu hm hrel hmir' hr1 hr2
                    by_cases hh : fxhash buf1 = fxhash buf2
                    · rw [if_pos hh] at hcl
                      rw [runLoop_unchangedStep rest acc hcl] at h
                      have := ih _ res h
                      refine this.trans ?_
                      simp only [filesOf, List.filterMap_cons, hf', hs']
                      simpa [filesOf] using
                        perm_snoc_c acc.changed_files acc.new_files acc.unchanged_files
                          (filesOf rest) e.path
                    · rw [if_neg hh] at hcl
                      rw [runLoop_changedStep rest acc hcl] at h
                      have := ih _ res h
                      refine this.trans ?_
                      simp only [filesOf, List.filterMap_cons, hf', hs']
                      simpa [filesOf] using
                        perm_snoc_a acc.changed_files acc.new_files acc.unchanged_files
                          (filesOf rest) e.path

/-- Entries whose path equals `p` and that the loop body skips (or crashes
on) contribute nothing: if the run succeeds, `p` is absent from the result
lists whenever it was absent from the accumulator. -/
lemma runLoop_skip_not_mem (p1 p2 : FsPath) (set : RegexSet) (fs : FS) (p : FsPath)
    (walker : List (Except Unit Entry)) :
    ∀ acc res : FolderCompare,
      (∀ e : Entry, Except.ok e ∈ walker → e.path = p →
        classifyEntry p1 p2 set fs e = StepResult.skip ∨
          classifyEntry p1 p2 set fs e = StepResult.crash) →
      runLoop p1 p2 set fs walker acc = some (Except.ok res) →
      p ∉ acc.changed_files ∧ p ∉ acc.new_files ∧ p ∉ acc.unchanged_files →
      p ∉ res.changed_files ∧ p ∉ res.new_files ∧ p ∉ res.unchanged_files := by
  induction walker with
  | nil =>
    intro acc res _ h hacc
    rw [runLoop_nil] at h
    simp only [Option.some.injEq, Except.ok.injEq] at h
    subst h
    exact hacc
  | cons x rest ih =>
    intro acc res hskip h hacc
    cases x with
    | error u =>
      rw [runLoop_walkError] at h
      exact ih acc res (fun e he hp => hskip e (List.mem_cons_of_mem _ he) hp) h hacc
    | ok e =>
      have hskipRest : ∀ e : Entry, Except.ok e ∈ rest → e.path = p →
          classifyEntry p1 p2 set fs e = StepResult.skip ∨
            classifyEntry p1 p2 set fs e = StepResult.crash :=
        fun e he hp => hskip e (List.mem_cons_of_mem _ he) hp
      cases hc : classifyEntry p1 p2 set fs e with
      | skip =>
        rw [runLoop_skipStep rest acc hc] at h
        exact ih acc res hskipRest h hacc
      | crash =>
        rw [runLoop_crashStep rest acc hc] at h
        cases h
      | abort er =>
        rw [runLoop_abortStep rest acc hc] at h
        cases h
      | newFile =>
        have hpne : e.path ≠ p := by
          intro hp
          rcases hskip e (List.mem_cons_self _ _) hp with h1 | h1 <;>
            rw [hc] at h1 <;> cases h1
        rw [runLoop_newStep rest acc hc] at h
        refine ih _ res hskipRest h ?_
        refine ⟨hacc.1, ?_, hacc.2.2⟩
        simp only [List.mem_append, List.mem_singleton]
        rintro (hmem | hmem)
        · exact hacc.2.1 hmem
        · exact hpne hmem.symm
      | unchanged =>
        have hpne : e.path ≠ p := by
          intro hp
          rcases hskip e (List.mem_cons_self _ _) hp with h1 | h1 <;>
            rw [hc] at h1 <;> cases h1
        rw [runLoop_unchangedStep rest acc hc] at h
        refine ih _ res hskipRest h ?_
        refine ⟨hacc.1, hacc.2.1, ?_⟩
        simp only [List.mem_append, List.mem_singleton]
        rintro (hmem | hmem)
        · exact hacc.2.2 hmem
        · exact hpne hmem.symm
      | changed =>
        have hpne : e.path ≠ p := by
          intro hp
          rcases hskip e (List.mem_cons_self _ _) hp with h1 | h1 <;>
            rw [hc] at h1 <;> cases h1
        rw [runLoop_changedStep rest acc hc] at h
        refine ih _ res hskipRest h ?_
        refine ⟨?_, hacc.2.1, hacc.2.2⟩
        simp only [List.mem_append, List.mem_singleton]
        rintro (hmem | hmem)
        · exact hacc.1 hmem
        · exact hpne hmem.symm

/-- When no path under the second root is a file, the loop never classifies
an entry as unchanged or changed. -/
lemma runLoop_absent (p1 p2 : FsPath) (set : RegexSet) (fs : FS)
    (habs : ∀ q : FsPath, fs.isFile (p2 ++ q) = false)
    (walker : List (Except Unit Entry)) :
    ∀ acc res : FolderCompare,
      runLoop p1 p2 set fs walker acc = some (Except.ok res) →
      res.changed_files = acc.changed_files ∧
        res.unchanged_files = acc.unchanged_files := by
  have hnotcu : ∀ e : Entry,
      classifyEntry p1 p2 set fs e ≠ StepResult.unchanged ∧
        classifyEntry p1 p2 set fs e ≠ StepResult.changed := by
    intro e
    by_cases hf : e.isFile = false
    · rw [classifyEntry_notFile hf]; exact ⟨by simp, by simp⟩
    · have hf' : e.isFile = true := by simpa using hf
      by_cases hs : e.isSymlink = true
      · rw [classifyEntry_symlink hs]; exact ⟨by simp, by simp⟩
      · have hs' : e.isSymlink = false := by simpa using hs
        cases hu : e.utf8 with
        | false =>
          rw [classifyEntry_nonUtf8 hf' hs' hu]; exact ⟨by simp, by simp⟩
        | true =>
          by_cases hm : matchedAny set (pathToString e.path) = true
          · rw [classifyEntry_matched hu hm]; exact ⟨by simp, by simp⟩
          · have hm' : matchedAny set (pathToString e.path) = false := by simpa using hm
            cases hrel : stripRoot e.path p1 with
            | none =>
              rw [classifyEntry_stripFail hf' hs' hu hm' hrel]; exact ⟨by simp, by simp⟩
            | some rel =>
              rw [classifyEntry_newFile hf' hs' hu hm' hrel (habs rel)]
              exact ⟨by simp, by simp⟩
  induction walker with
  | nil =>
    intro acc res h
    rw [runLoop_nil] at h
    simp only [Option.some.injEq, Except.ok.injEq] at h
    subst h
    exact ⟨rfl, rfl⟩
  | cons x rest ih =>
    intro acc res h
    cases x with
    | error u =>
      rw [runLoop_walkError] at h
      exact ih acc res h
    | ok e =>
      cases hc : classifyEntry p1 p2 set fs e with
      | skip =>
        rw [runLoop_skipStep rest acc hc] at h
        exact ih acc res h
      | crash =>
        rw [runLoop_crashStep rest acc hc] at h
        cases h
      | abort er =>
        rw [runLoop_abortStep rest acc hc] at h
        cases h
      | newFile =>
        rw [runLoop_newStep rest acc hc] at h
        have h2 := ih { acc with new_files := acc.new_files ++ [e.path] } res h
        exact ⟨h2.1, h2.2⟩
      | unchanged => exact absurd hc (hnotcu e).1
      | changed => exact absurd hc (hnotcu e).2

/-- C1: for a walked file entry that survives the type, symlink and exclusion
filters and whose mirror path exists as a file in the second root, the loop
reads the full byte contents of both files, fingerprints each with the hasher,
and classifies the entry as unchanged exactly when the fingerprints are equal
and as changed when they are unequal; identical byte contents always yield
the unchanged classification, independently of the two file names. -/
theorem content_fingerprints_decide_classification
    (p1 p2 : FsPath) (set : RegexSet) (fs : FS) (e : Entry)
    (rest : List (Except Unit Entry)) (acc : FolderCompare)
    (rel : FsPath) (buf1 buf2 : List Nat)
    (hf : e.isFile = true) (hs : e.isSymlink = false) (hu : e.utf8 = true)
    (hm : matchedAny set (pathToString e.path) = false)
    (hrel : stripRoot e.path p1 = some rel)
    (hmir : fs.isFile (p2 ++ rel) = true)
    (hr1 : fs.read e.path = Except.ok buf1)
    (hr2 : fs.read (p2 ++ rel) = Except.ok buf2) :
    (runLoop p1 p2 set fs (Except.ok e :: rest) acc =
      if fxhash buf1 = fxhash buf2 then
        runLoop p1 p2 set fs rest
          { acc with unchanged_files := acc.unchanged_files ++ [e.path] }
      else
        runLoop p1 p2 set fs rest
          { acc with changed_files := acc.changed_files ++ [e.path] })
    ∧ (buf1 = buf2 → classifyEntry p1 p2 set fs e = StepResult.unchanged) := by
  have hcl := classifyEntry_hash hf hs hu hm hrel hmir hr1 hr2
  constructor
  · by_cases hh : fxhash buf1 = fxhash buf2
    · rw [if_pos hh]
      rw [if_pos hh] at hcl
      exact runLoop_unchangedStep rest acc hcl
    · rw [if_neg hh]
      rw [if_neg hh] at hcl
      exact runLoop_changedStep rest acc hcl
  · intro hb
    subst hb
    rw [hcl, if_pos rfl]

/-- C2: an eligible entry with no file at the mirror path is classified as
new by a step that never consults the reader (the step equation holds for
every reader `rd`), and when nothing under the second root is a file a
successful call returns empty changed and unchanged lists. -/
theorem mirror_absent_classifies_new :
    (∀ (p1 p2 : FsPath) (set : RegexSet) (isF : FsPath → Bool)
        (rd : FsPath → Except Unit (List Nat)) (e : Entry)
        (rest : List (Except Unit Entry)) (acc : FolderCompare) (rel : FsPath),
      e.isFile = true → e.isSymlink = false → e.utf8 = true →
      matchedAny set (pathToString e.path) = false →
      stripRoot e.path p1 = some rel →
      isF (p2 ++ rel) = false →
      classifyEntry p1 p2 set ⟨isF, rd⟩ e = StepResult.newFile ∧
        runLoop p1 p2 set ⟨isF, rd⟩ (Except.ok e :: rest) acc =
          runLoop p1 p2 set ⟨isF, rd⟩ rest
            { acc with new_files := acc.new_files ++ [e.path] })
    ∧ (∀ (engine : String → Except Unit (String → Bool)) (p1 p2 : FsPath)
        (excluded : List String) (walker : List (Except Unit Entry)) (fs : FS)
        (res : FolderCompare),
      (∀ q : FsPath, fs.isFile (p2 ++ q) = false) →
      FolderCompare.new engine p1 p2 excluded walker fs = some (Except.ok res) →
      res.changed_files = [] ∧ res.unchanged_files = []) := by
  constructor
  · intro p1 p2 set isF rd e rest acc rel hf hs hu hm hrel hmir
    have hcl := @classifyEntry_newFile p1 p2 set ⟨isF, rd⟩ e rel hf hs hu hm hrel hmir
    exact ⟨hcl, runLoop_newStep rest acc hcl⟩
  · intro engine p1 p2 excluded walker fs res habs h
    cases hcomp : compileSet engine excluded with
    | error er => simp [FolderCompare.new, hcomp] at h
    | ok set =>
      simp only [FolderCompare.new, hcomp] at h
      have h2 := runLoop_absent p1 p2 set fs habs walker ⟨[], [], []⟩ res h
      exact ⟨h2.1, h2.2⟩

/-- C4: if any exclusion pattern fails to compile, the call returns the
Regex variant of the error for every walker and every filesystem, so no
traversal is consulted and no entry is classified. -/
theorem pattern_error_aborts_before_traversal
    (engine : String → Except Unit (String → Bool)) (p1 p2 : FsPath)
    (excluded : List String) (er : Unit)
    (h : compileSet engine excluded = Except.error er) :
    ∀ (walker : List (Except Unit Entry)) (fs : FS),
      FolderCompare.new engine p1 p2 excluded walker fs =
        some (Except.error Error.regexError) := by
  intro walker fs
  simp [FolderCompare.new, h]

/-- C7: a walk error is skipped silently and the loop continues with the
rest of the walk, and a walk that yields no entries (as when the first root
does not exist) makes a call with compiling patterns return three empty
lists rather than an error. -/
theorem walk_errors_skipped_and_empty_walk_ok :
    (∀ (p1 p2 : FsPath) (set : RegexSet) (fs : FS) (u : Unit)
        (rest : List (Except Unit Entry)) (acc : FolderCompare),
      runLoop p1 p2 set fs (Except.error u :: rest) acc =
        runLoop p1 p2 set fs rest acc)
    ∧ (∀ (engine : String → Except Unit (String → Bool)) (p1 p2 : FsPath)
        (excluded : List String) (set : RegexSet) (fs : FS),
      compileSet engine excluded = Except.ok set →
      FolderCompare.new engine p1 p2 excluded [] fs =
        some (Except.ok ⟨[], [], []⟩)) := by
  constructor
  · exact runLoop_walkError
  · intro engine p1 p2 excluded set fs hcomp
    simp [FolderCompare.new, hcomp, runLoop_nil]

/-- C8: once an entry has passed the filters, a failing root strip aborts
the whole call with the StripPrefix variant, and a failing content read on
either side aborts it with the Io variant; the abort discards the
accumulated lists and the remaining walk, so the caller receives a lone
terminal error instead of any partial result. -/
theorem classification_errors_abort
    (p1 p2 : FsPath) (set : RegexSet) (fs : FS) (e : Entry)
    (rest : List (Except Unit Entry)) (acc : FolderCompare)
    (hf : e.isFile = true) (hs : e.isSymlink = false) (hu : e.utf8 = true)
    (hm : matchedAny set (pathToString e.path) = false) :
    (stripRoot e.path p1 = none →
      runLoop p1 p2 set fs (Except.ok e :: rest) acc =
        some (Except.error Error.stripError))
    ∧ (∀ (rel : FsPath) (u : Unit), stripRoot e.path p1 = some rel →
        fs.isFile (p2 ++ rel) = true → fs.read e.path = Except.error u →
        runLoop p1 p2 set fs (Except.ok e :: rest) acc =
          some (Except.error Error.ioError))
    ∧ (∀ (rel : FsPath) (buf : List Nat) (u : Unit),
        stripRoot e.path p1 = some rel →
        fs.isFile (p2 ++ rel) = true → fs.read e.path = Except.ok buf →
        fs.read (p2 ++ rel) = Except.error u →
        runLoop p1 p2 set fs (Except.ok e :: rest) acc =
          some (Except.error Error.ioError)) := by
  refine ⟨?_, ?_, ?_⟩
  · intro hrel
    exact runLoop_abortStep rest acc (classifyEntry_stripFail hf hs hu hm hrel)
  · intro rel u hrel hmir hr
    exact runLoop_abortStep rest acc (classifyEntry_readFail1 hf hs hu hm hrel hmir hr)
  · intro rel buf u hrel hmir hr1 hr2
    exact runLoop_abortStep rest acc
      (classifyEntry_readFail2 hf hs hu hm hrel hmir hr1 hr2)

/-- C10: for a walked file entry with a UTF-8 path the exclusion check is
well defined and the loop body never crashes on it, while a file entry with
a non-UTF-8 path makes the body crash (the unwrap of `to_str`), so the
whole call yields no result at all instead of an error value. -/
theorem utf8_check_totality
    (p1 p2 : FsPath) (set : RegexSet) (fs : FS) (e : Entry)
    (hf : e.isFile = true) (hs : e.isSymlink = false) :
    (e.utf8 = true → classifyEntry p1 p2 set fs e ≠ StepResult.crash)
    ∧ (e.utf8 = false →
        classifyEntry p1 p2 set fs e = StepResult.crash ∧
          ∀ (rest : List (Except Unit Entry)) (acc : FolderCompare),
            runLoop p1 p2 set fs (Except.ok e :: rest) acc = none) := by
  constructor
  · intro hu
    by_cases hm : matchedAny set (pathToString e.path) = true
    · rw [classifyEntry_matched hu hm]
      simp
    · have hm' : matchedAny set (pathToString e.path) = false := by simpa using hm
      cases hrel : stripRoot e.path p1 with
      | none =>
        rw [classifyEntry_stripFail hf hs hu hm' hrel]
        simp
      | some rel =>
        by_cases hmir : fs.isFile (p2 ++ rel) = false
        · rw [classifyEntry_newFile hf hs hu hm' hrel hmir]
          simp
        · have hmir' : fs.isFile (p2 ++ rel) = true := by simpa using hmir
          cases hr1 : fs.read e.path with
          | error u =>
            rw [classifyEntry_readFail1 hf hs hu hm' hrel hmir' hr1]
            simp
          | ok buf1 =>
            cases hr2 : fs.read (p2 ++ rel) with
            | error u =>
              rw [classifyEntry_readFail2 hf hs hu hm' hrel hmir' hr1 hr2]
              simp
            | ok buf2 =>
              rw [classifyEntry_hash hf hs hu hm' hrel hmir' hr1 hr2]
              split <;> simp
  · intro hu
    have hc := @classifyEntry_nonUtf8 p1 p2 set fs e hf hs hu
    exact ⟨hc, fun rest acc => runLoop_crashStep rest acc hc⟩

/-- C3: with no exclusion patterns, a successful call distributes exactly
the regular files of the first tree over its three lists: their
concatenation is a permutation of the walked files, and when the walk
repeats no file, no file is counted twice across the three lists. -/
theorem no_exclusions_round_trip
    (engine : String → Except Unit (String → Bool)) (p1 p2 : FsPath)
    (walker : List (Except Unit Entry)) (fs : FS) (res : FolderCompare)
    (h : FolderCompare.new engine p1 p2 [] walker fs = some (Except.ok res)) :
    (res.changed_files ++ res.new_files ++ res.unchanged_files).Perm
        (filesOf walker)
    ∧ ((filesOf walker).Nodup →
        (res.changed_files ++ res.new_files ++ res.unchanged_files).Nodup) := by
  have hset : compileSet engine [] = Except.ok [] := rfl
  simp only [FolderCompare.new, hset] at h
  have hp := runLoop_perm p1 p2 fs walker ⟨[], [], []⟩ res h
  simp only [List.nil_append] at hp
  exact ⟨hp, fun hnd => hp.nodup_iff.mpr hnd⟩

/-- C5: a path all of whose walked entries match the compiled exclusion set
never appears in any of the three result lists of a successful call, and an
empty pattern collection compiles to the empty set, which matches no path
string at all. -/
theorem excluded_paths_never_in_output
    (engine : String → Except Unit (String → Bool)) (p1 p2 : FsPath)
    (excluded : List String) (set : RegexSet)
    (walker : List (Except Unit Entry)) (fs : FS) (res : FolderCompare)
    (p : FsPath) :
    (compileSet engine excluded = Except.ok set →
      (∀ e : Entry, Except.ok e ∈ walker → e.path = p →
        matchedAny set (pathToString e.path) = true) →
      FolderCompare.new engine p1 p2 excluded walker fs =
        some (Except.ok res) →
      p ∉ res.changed_files ∧ p ∉ res.new_files ∧ p ∉ res.unchanged_files)
    ∧ (compileSet engine [] = Except.ok [] ∧
        ∀ s : String, matchedAny [] s = false) := by
  constructor
  · intro hcomp hmatch h
    simp only [FolderCompare.new, hcomp] at h
    exact runLoop_skip_not_mem p1 p2 set fs p walker ⟨[], [], []⟩ res
      (fun e he hp => classifyEntry_matched_or (hmatch e he hp)) h
      (by simp)
  · exact ⟨rfl, fun s => rfl⟩

/-- C6: a path all of whose walked entries are symbolic links never appears
in any of the three result lists of a successful call: symlinks are skipped
before the mirror lookup and the hashing, never followed or compared. -/
theorem symlinks_never_in_output
    (engine : String → Except Unit (String → Bool)) (p1 p2 : FsPath)
    (excluded : List String) (set : RegexSet)
    (walker : List (Except Unit Entry)) (fs : FS) (res : FolderCompare)
    (p : FsPath)
    (hcomp : compileSet engine excluded = Except.ok set)
    (hsym : ∀ e : Entry, Except.ok e ∈ walker → e.path = p →
      e.isSymlink = true)
    (h : FolderCompare.new engine p1 p2 excluded walker fs =
      some (Except.ok res)) :
    p ∉ res.changed_files ∧ p ∉ res.new_files ∧ p ∉ res.unchanged_files := by
  simp only [FolderCompare.new, hcomp] at h
  exact runLoop_skip_not_mem p1 p2 set fs p walker ⟨[], [], []⟩ res
    (fun e he hp => Or.inl (classifyEntry_symlink (hsym e he hp))) h
    (by simp)

/-- C9: the two-tuple entry point returns exactly the changed and new lists
of the three-list result object on the same inputs: it succeeds with a pair
iff the three-list form succeeds with the same two lists and some unchanged
list, which the pair omits. -/
theorem compare_is_projection
    (engine : String → Except Unit (String → Bool)) (p1 p2 : FsPath)
    (excluded : List String) (walker : List (Except Unit Entry)) (fs : FS)
    (c n : List FsPath) :
    FolderCompare.compare engine p1 p2 excluded walker fs = some (Except.ok (c, n)) ↔
      ∃ u : List FsPath,
        FolderCompare.new engine p1 p2 excluded walker fs =
          some (Except.ok ⟨c, n, u⟩) := by
  unfold FolderCompare.compare
  cases h : FolderCompare.new engine p1 p2 excluded walker fs with
  | none => simp
  | some r =>
    cases r with
    | error er => simp [Except.map]
    | ok fc =>
      cases fc with
      | mk cf nf uf =>
        constructor
        · intro hx
          simp [Except.map] at hx
          exact ⟨uf, by simp [hx.1, hx.2]⟩
        · rintro ⟨u, hu⟩
          simp only [Option.some.injEq, Except.ok.injEq,
            FolderCompare.mk.injEq] at hu
          simp [Except.map, hu.1, hu.2.1]

/-- A concrete regex compiler whose matchers match nothing. -/
def engOkFalse : String → Except Unit (String → Bool) :=
  fun _ => Except.ok (fun _ => false)

/-- A concrete regex compiler whose matchers match every string. -/
def engTrue : String → Except Unit (String → Bool) :=
  fun _ => Except.ok (fun _ => true)

/-- A concrete regex compiler rejecting every pattern. -/
def engFail : String → Except Unit (String → Bool) :=
  fun _ => Except.error ()

/-- A concrete regular-file entry under the first root. -/
def eA : Entry := ⟨["a", "f"], true, false, true⟩

/-- A concrete symlink entry under the first root. -/
def eSym : Entry := ⟨["a", "s"], true, true, true⟩

/-- A concrete file entry whose textual path is not valid UTF-8. -/
def eBad : Entry := ⟨["a", "g"], true, false, false⟩

/-- A concrete file entry that is not under the first root. -/
def eOut : Entry := ⟨["z", "f"], true, false, true⟩

/-- A filesystem with no readable file and no file under the second root. -/
def fsNone : FS := ⟨fun _ => false, fun _ => Except.error ()⟩

/-- A filesystem where the entry and its mirror both hold the bytes 1,2,3. -/
def fsBoth : FS :=
  ⟨fun q => decide (q = ["b", "f"]),
   fun q =>
     if q = ["a", "f"] then Except.ok [1, 2, 3]
     else if q = ["b", "f"] then Except.ok [1, 2, 3]
     else Except.error ()⟩

/-- A filesystem where the mirror exists but every read fails. -/
def fsReadFail : FS :=
  ⟨fun q => decide (q = ["b", "f"]), fun _ => Except.error ()⟩

/-- A filesystem where the mirror exists, the first read succeeds and the
second read fails. -/
def fsReadFail2 : FS :=
  ⟨fun q => decide (q = ["b", "f"]),
   fun q => if q = ["a", "f"] then Except.ok [1] else Except.error ()⟩

/-- Witness for C1: a concrete eligible entry with an existing mirror of
identical contents follows the fingerprint equation and is unchanged. -/
theorem content_fingerprints_decide_classification_witness :
    (runLoop ["a"] ["b"] [] fsBoth [Except.ok eA] ⟨[], [], []⟩ =
      if fxhash [1, 2, 3] = fxhash [1, 2, 3] then
        runLoop ["a"] ["b"] [] fsBoth [] ⟨[], [], [["a", "f"]]⟩
      else
        runLoop ["a"] ["b"] [] fsBoth [] ⟨[["a", "f"]], [], []⟩)
    ∧ classifyEntry ["a"] ["b"] [] fsBoth eA = StepResult.unchanged := by
  have H := content_fingerprints_decide_classification ["a"] ["b"] [] fsBoth eA
    [] ⟨[], [], []⟩ ["f"] [1, 2, 3] [1, 2, 3]
    rfl rfl rfl rfl (by decide) (by decide) rfl rfl
  exact ⟨H.1, H.2 rfl⟩

/-- Witness for C2: a concrete eligible entry with no mirror steps to the
new list under a filesystem whose reader always fails, and a call against a
second root with no files ends with empty changed and unchanged lists. -/
theorem mirror_absent_classifies_new_witness :
    (classifyEntry ["a"] ["b"] [] fsNone eA = StepResult.newFile ∧
      runLoop ["a"] ["b"] [] fsNone [Except.ok eA] ⟨[], [], []⟩ =
        runLoop ["a"] ["b"] [] fsNone [] ⟨[], [["a", "f"]], []⟩)
    ∧ (([] : List FsPath) = [] ∧ ([] : List FsPath) = []) :=
  ⟨mirror_absent_classifies_new.1 ["a"] ["b"] [] fsNone.isFile fsNone.read eA
      [] ⟨[], [], []⟩ ["f"] rfl rfl rfl rfl (by decide) rfl,
   mirror_absent_classifies_new.2 engOkFalse ["a"] ["b"] [] [Except.ok eA]
      fsNone ⟨[], [["a", "f"]], []⟩ (fun q => rfl) rfl⟩

/-- Witness for C3: one walked regular file, no exclusions, empty second
root: the three lists concatenate to exactly that file. -/
theorem no_exclusions_round_trip_witness :
    (([] : List FsPath) ++ [["a", "f"]] ++ []).Perm (filesOf [Except.ok eA])
    ∧ (([] : List FsPath) ++ [["a", "f"]] ++ []).Nodup := by
  have H := no_exclusions_round_trip engOkFalse ["a"] ["b"] [Except.ok eA]
    fsNone ⟨[], [["a", "f"]], []⟩ rfl
  exact ⟨H.1, H.2 (by decide)⟩

/-- Witness for C4: a compiler that rejects the pattern makes the call
return the Regex error on a concrete walker and filesystem. -/
theorem pattern_error_aborts_before_traversal_witness :
    FolderCompare.new engFail ["a"] ["b"] ["("] [] fsNone =
      some (Except.error Error.regexError) :=
  pattern_error_aborts_before_traversal engFail ["a"] ["b"] ["("] () rfl []
    fsNone

/-- Witness for C5: with a matcher matching everything, the walked file is
in no output list, and the empty pattern list compiles to the empty set and
matches nothing. -/
theorem excluded_paths_never_in_output_witness :
    ((["a", "f"] : FsPath) ∉ ([] : List FsPath) ∧
      (["a", "f"] : FsPath) ∉ ([] : List FsPath) ∧
      (["a", "f"] : FsPath) ∉ ([] : List FsPath))
    ∧ compileSet engTrue [] = Except.ok []
    ∧ matchedAny [] "x" = false := by
  have H := excluded_paths_never_in_output engTrue ["a"] ["b"] ["x"]
    [fun _ => true] [Except.ok eA] fsNone ⟨[], [], []⟩ ["a", "f"]
  exact ⟨H.1 rfl (fun e he hp => rfl) rfl, H.2.1, H.2.2 "x"⟩

/-- Witness for C6: a walked symlink pointing at an existing, differing
mirror is in no output list. -/
theorem symlinks_never_in_output_witness :
    (["a", "s"] : FsPath) ∉ ([] : List FsPath) ∧
      (["a", "s"] : FsPath) ∉ ([] : List FsPath) ∧
      (["a", "s"] : FsPath) ∉ ([] : List FsPath) :=
  symlinks_never_in_output engOkFalse ["a"] ["b"] [] [] [Except.ok eSym]
    fsBoth ⟨[], [], []⟩ ["a", "s"] rfl
    (fun e he hp => by
      simp only [List.mem_singleton, Except.ok.injEq] at he
      subst he
      rfl)
    rfl

/-- Witness for C7: a concrete walk error is dropped, and the empty walk
returns three empty lists. -/
theorem walk_errors_skipped_and_empty_walk_ok_witness :
    runLoop ["a"] ["b"] [] fsNone [Except.error ()] ⟨[], [], []⟩ =
        runLoop ["a"] ["b"] [] fsNone [] ⟨[], [], []⟩
    ∧ FolderCompare.new engOkFalse ["a"] ["b"] [] [] fsNone =
        some (Except.ok ⟨[], [], []⟩) :=
  ⟨walk_errors_skipped_and_empty_walk_ok.1 ["a"] ["b"] [] fsNone () []
      ⟨[], [], []⟩,
   walk_errors_skipped_and_empty_walk_ok.2 engOkFalse ["a"] ["b"] [] []
      fsNone rfl⟩

/-- Witness for C8: a concrete entry outside the first root aborts with the
StripPrefix variant, and concrete read failures on either side abort with
the Io variant. -/
theorem classification_errors_abort_witness :
    runLoop ["a"] ["b"] [] fsNone [Except.ok eOut] ⟨[], [], []⟩ =
        some (Except.error Error.stripError)
    ∧ runLoop ["a"] ["b"] [] fsReadFail [Except.ok eA] ⟨[], [], []⟩ =
        some (Except.error Error.ioError)
    ∧ runLoop ["a"] ["b"] [] fsReadFail2 [Except.ok eA] ⟨[], [], []⟩ =
        some (Except.error Error.ioError) :=
  ⟨(classification_errors_abort ["a"] ["b"] [] fsNone eOut [] ⟨[], [], []⟩
      rfl rfl rfl rfl).1 (by decide),
   (classification_errors_abort ["a"] ["b"] [] fsReadFail eA [] ⟨[], [], []⟩
      rfl rfl rfl rfl).2.1 ["f"] () (by decide) (by decide) rfl,
   (classification_errors_abort ["a"] ["b"] [] fsReadFail2 eA [] ⟨[], [], []⟩
      rfl rfl rfl rfl).2.2 ["f"] [1] () (by decide) (by decide) rfl rfl⟩

/-- Witness for C10: the loop body does not crash on a concrete UTF-8 file
entry, and crashes on a concrete non-UTF-8 one, taking the whole call down
with it. -/
theorem utf8_check_totality_witness :
    classifyEntry ["a"] ["b"] [] fsNone eA ≠ StepResult.crash
    ∧ classifyEntry ["a"] ["b"] [] fsNone eBad = StepResult.crash
    ∧ runLoop ["a"] ["b"] [] fsNone [Except.ok eBad] ⟨[], [], []⟩ = none := by
  have H1 := (utf8_check_totality ["a"] ["b"] [] fsNone eA rfl rfl).1 rfl
  have H2 := (utf8_check_totality ["a"] ["b"] [] fsNone eBad rfl rfl).2 rfl
  exact ⟨H1, H2.1, H2.2 [] ⟨[], [], []⟩⟩
